import Mathlib

/-!
Verification development for the mows web framework (Go).

The definitions below are a shallow embedding of the framework's core:
the router (static and parameterized route matching), the middleware
chain builder, route registration, the response-writer wrapper, and the
Context request helpers.  Go strings are modelled as Lean `String`
(segments as `List Char`), Go maps as lookup functions or association
lists, Go errors as `Option String` / `Except String`, and `panic` as
`Except.error`.  Stateful handlers (`func(*Context) error`, mutating the
context through a pointer) are modelled by explicit state passing:
a handler takes a state and returns the new state and an optional error.
-/

set_option maxRecDepth 10000

namespace Mows

/-! ## String helpers mirroring the Go standard library -/

/-- Model of Go `strings.Trim(s, cutset)` for a single-character cutset:
removes all leading and trailing occurrences of the character. -/
def goTrim (ch : Char) (s : List Char) : List Char :=
  ((s.dropWhile (· = ch)).reverse.dropWhile (· = ch)).reverse

/-- Model of Go `strings.Split(s, sep)` for a single-character separator.
Note Go's `strings.Split("", "/") = [""]`, which this reproduces. -/
def goSplit (sep : Char) : List Char → List (List Char)
  | [] => [[]]
  | c :: cs =>
    if c = sep then [] :: goSplit sep cs
    else
      match goSplit sep cs with
      | [] => [[c]]
      | s :: ss => (c :: s) :: ss

/-- Contiguous-substring test on character lists. -/
def listInfixOf (sub : List Char) : List Char → Bool
  | [] => sub.isEmpty
  | c :: cs => sub.isPrefixOf (c :: cs) || listInfixOf sub cs

/-- Model of Go `strings.Contains(s, sub)`: byte-wise substring test. -/
def goContains (s sub : String) : Bool :=
  listInfixOf sub.toList s.toList

/-- Model of Go `strings.Contains(path, ":")`, used by the router to decide
whether a path is parameterized (source: `hasParams`). -/
def hasParams (path : String) : Bool :=
  path.toList.contains ':'

/-! ## Router data model (source: router part of the repository) -/

/-- Source `route`: a registered handler together with its middleware list. -/
structure route (H M : Type) where
  handler : H
  middlewares : List M
deriving DecidableEq

/-- Source `paramRoute`: a parameterized route, storing the path split into
segments (`pathParts`, each segment a `List Char`). -/
structure paramRoute (H M : Type) where
  pathParts : List (List Char)
  rt : route H M
deriving DecidableEq

/-- Source `Router`: `staticRoutes` is the nested Go map
`map[method]map[path]route` modelled as a lookup function;
`paramRoutes` is `map[method][]paramRoute` modelled likewise. -/
structure Router (H M : Type) where
  staticRoutes : String → String → Option (route H M)
  paramRoutes : String → List (paramRoute H M)

/-- Source `NewRouter`: both maps start empty. -/
def NewRouter (H M : Type) : Router H M :=
  ⟨fun _ _ => none, fun _ => []⟩

/-- Request path split into segments exactly as the source does it:
`strings.Split(strings.Trim(path, "/"), "/")`. -/
def requestParts (path : String) : List (List Char) :=
  goSplit '/' (goTrim '/' path.toList)

/-- The inner loop of source `Router.find`: walk candidate segments and
request segments pairwise.  A segment starting with `:` binds its suffix
(the name) to the request segment; a literal segment must be equal
byte-wise.  Returns the accumulated bindings on success. -/
def matchParts : List (List Char) → List (List Char) →
    Option (List (String × String))
  | [], [] => some []
  | p :: ps, q :: qs =>
    if p.head? = some ':' then
      match matchParts ps qs with
      | some rest => some ((String.mk p.tail, String.mk q) :: rest)
      | none => none
    else
      if p = q then matchParts ps qs else none
  | _, _ => none

/-- The param-route scan of source `Router.find`: skip candidates whose
segment count differs, otherwise try `matchParts`; the first match wins. -/
def findParam {H M : Type} :
    List (paramRoute H M) → List (List Char) →
    Option (route H M × List (String × String))
  | [], _ => none
  | pr :: rest, req =>
    if pr.pathParts.length = req.length then
      match matchParts pr.pathParts req with
      | some ps => some (pr.rt, ps)
      | none => findParam rest req
    else findParam rest req

/-- Source `Router.find`: exact lookup in the static table first (raw,
untrimmed path, no parameters on success), then the ordered scan of the
parameterized routes for the method. -/
def Router.find {H M : Type} (r : Router H M) (method path : String) :
    Option (route H M × List (String × String)) :=
  match r.staticRoutes method path with
  | some rt => some (rt, [])
  | none => findParam (r.paramRoutes method) (requestParts path)

/-- Source `Router.addWithMiddleware`: a path without `:` goes into the
static table (overwriting any previous entry for the same method and
path); a parameterized path is split and appended to the method's list. -/
def Router.addWithMiddleware {H M : Type} (r : Router H M)
    (method path : String) (handler : H) (middlewares : List M) :
    Router H M :=
  let rt : route H M := ⟨handler, middlewares⟩
  if hasParams path = false then
    { r with staticRoutes := fun m p =>
        if m = method ∧ p = path then some rt else r.staticRoutes m p }
  else
    { r with paramRoutes := fun m =>
        if m = method then
          r.paramRoutes m ++ [⟨requestParts path, rt⟩]
        else r.paramRoutes m }

/-- A single registration request, used to state order-independence of
static-route lookup over whole registration sequences. -/
structure Registration (H M : Type) where
  method : String
  path : String
  handler : H
  middlewares : List M
deriving DecidableEq

/-- Apply a sequence of registrations left to right (registration order). -/
def applyRegs {H M : Type} (regs : List (Registration H M))
    (r : Router H M) : Router H M :=
  regs.foldl
    (fun acc g => acc.addWithMiddleware g.method g.path g.handler g.middlewares)
    r

/-- Declarative matching predicate used to characterize `Router.find` on
parameterized routes: same segment count, and every pair is either a
capture segment (starts with `:`) or byte-wise equal. -/
def candMatches (cand req : List (List Char)) : Bool :=
  decide (cand.length = req.length) &&
    (cand.zip req).all fun pq =>
      decide (pq.1.head? = some ':') || decide (pq.1 = pq.2)

/-- Declarative binding list: the captures of a candidate, in segment
order, bound to the corresponding request segments. -/
def bindParams (cand req : List (List Char)) : List (String × String) :=
  (cand.zip req).filterMap fun pq =>
    if pq.1.head? = some ':' then
      some (String.mk pq.1.tail, String.mk pq.2)
    else none

/-! ## Concrete fixtures used by witnesses -/

/-- A registration sequence mixing parameterized routes (with the same
two-segment shape) around a static route, in this order. -/
def regs0 : List (Registration Nat Nat) :=
  [⟨"GET", "/users/:id", 1, [10]⟩,
   ⟨"GET", "/users/me", 2, [20]⟩,
   ⟨"GET", "/:a/:b", 3, [30]⟩]

/-- The router obtained from `regs0`. -/
def r0 : Router Nat Nat := applyRegs regs0 (NewRouter Nat Nat)

/-! ## Handlers and middleware (source: middleware.go)

Go handlers have signature `func(*Context) error` and mutate the context
through a pointer; they are modelled by explicit state passing: a handler
takes the state and returns the updated state with an optional error. -/

/-- Source `HandlerFunc`, state-passing model. -/
abbrev HandlerFunc (σ ε : Type) : Type := σ → σ × Option ε

/-- Source `Middleware`: a function wrapping a `HandlerFunc`. -/
abbrev Middleware (σ ε : Type) : Type := HandlerFunc σ ε → HandlerFunc σ ε

/-- Source `Engine.buildChain`: apply the global middleware list to the
final handler from the last element down to index 0, so that
`middlewares[0]` becomes the outermost wrapper.  The Go loop
`for i := len-1; i >= 0; i-- \x7b h = middlewares[i](h) \x7d` is exactly a
right fold. -/
def buildChain {σ ε : Type} (middlewares : List (Middleware σ ε))
    (final : HandlerFunc σ ε) : HandlerFunc σ ε :=
  middlewares.foldr (fun m h => m h) final

/-- Source `wrapHandlerAsMiddleware`: run the adapted handler; on error
return it; otherwise call `next` and propagate its error. -/
def wrapHandlerAsMiddleware {σ ε : Type} (h : HandlerFunc σ ε) :
    Middleware σ ε :=
  fun next c =>
    match h c with
    | (c', some e) => (c', some e)
    | (c', none) =>
      match next c' with
      | (c'', some e) => (c'', some e)
      | (c'', none) => (c'', none)

/-- The route-specific fold in `Engine.handle`: wrap the matched route's
handler with its stored middlewares, last index first, so index 0 is
outermost. -/
def routeChain {σ ε : Type}
    (rt : route (HandlerFunc σ ε) (Middleware σ ε)) : HandlerFunc σ ε :=
  rt.middlewares.foldr (fun m h => m h) rt.handler

/-- `Engine.handle`'s full chain assembly: the global middlewares wrap
the route-level chain via `buildChain`. -/
def assembledChain {σ ε : Type} (globalMws : List (Middleware σ ε))
    (rt : route (HandlerFunc σ ε) (Middleware σ ε)) : HandlerFunc σ ε :=
  buildChain globalMws (routeChain rt)

/-- Reference semantics: run handlers in order, threading the state, and
stop at the first handler that returns an error. -/
def runAll {σ ε : Type} : List (HandlerFunc σ ε) → HandlerFunc σ ε
  | [] => fun s => (s, none)
  | h :: t => fun s =>
    match h s with
    | (s', some e) => (s', some e)
    | (s', none) => runAll t s'

/-- Run a list of handlers sequentially and, if none errored, continue
with a final handler. -/
def dSeq {σ ε : Type} (hs : List (HandlerFunc σ ε))
    (f : HandlerFunc σ ε) : HandlerFunc σ ε :=
  fun s =>
    match runAll hs s with
    | (s', some e) => (s', some e)
    | (s', none) => f s'

/-- Source `Engine.addRoute`: panics on an empty handler list (modelled
as `Except.error` carrying the panic message, so no route-table mutation
happens); otherwise the last handler is the terminal handler and every
earlier handler is adapted by `wrapHandlerAsMiddleware` and appended
after the supplied (group) middlewares. -/
def addRoute {σ ε : Type} (r : Router (HandlerFunc σ ε) (Middleware σ ε))
    (method path : String) (middlewares : List (Middleware σ ε))
    (handlers : List (HandlerFunc σ ε)) :
    Except String (Router (HandlerFunc σ ε) (Middleware σ ε)) :=
  match handlers.getLast? with
  | none => .error "route must have at least one handler"
  | some final =>
    .ok (r.addWithMiddleware method path final
      (middlewares ++ handlers.dropLast.map wrapHandlerAsMiddleware))

/-- Success test for `Except`. -/
def exceptIsOk {α β : Type} : Except α β → Bool
  | .ok _ => true
  | .error _ => false

/-! ## Router groups (source: router-group part of the repository) -/

/-- Source `RouterGroup`: a path prefix plus a middleware list (the
engine back-reference is dropped; the registrars below take the router
explicitly instead of reaching it through the engine). -/
structure RouterGroup (σ ε : Type) where
  prefixStr : String
  middlewares : List (Middleware σ ε)

/-- Source `RouterGroup.Group`: raw string concatenation of prefixes (no
slash normalization) and append of middleware lists. -/
def RouterGroup.Group {σ ε : Type} (rg : RouterGroup σ ε) (p : String)
    (m : List (Middleware σ ε)) : RouterGroup σ ε :=
  ⟨rg.prefixStr ++ p, rg.middlewares ++ m⟩

/-- Source `RouterGroup.GET`: prepend the group prefix and delegate to
`addRoute` with the group's middleware list.  POST/PUT/DELETE in the
source are identical except for the method string. -/
def RouterGroup.GET {σ ε : Type} (rg : RouterGroup σ ε)
    (r : Router (HandlerFunc σ ε) (Middleware σ ε)) (path : String)
    (handlers : List (HandlerFunc σ ε)) :
    Except String (Router (HandlerFunc σ ε) (Middleware σ ε)) :=
  addRoute r "GET" (rg.prefixStr ++ path) rg.middlewares handlers

/-- The engine's root group (`Engine.New` leaves prefix and middleware
at their zero values), through which `Engine.GET` etc. delegate. -/
def rootGroup (σ ε : Type) : RouterGroup σ ε := ⟨"", []⟩

/-! ## Response writer and Context (source: response_writer.go, context.go)

`net/http`'s ResponseWriter is modelled by `httpResponse`: a header map,
the status sent by the first `WriteHeader` call (later calls are ignored
by the transport; a `Write` before any `WriteHeader` implies status
200), and the accumulated body bytes. -/

/-- First-match lookup returning the empty string when the key is
absent, modelling both `http.Header.Get` and `url.Values.Get`. -/
def lookupFirst (hs : List (String × String)) (k : String) : String :=
  match hs.find? (fun kv => kv.1 == k) with
  | some kv => kv.2
  | none => ""

/-- Model of `http.Header.Set`: replace every value stored for the key. -/
def headerSet (hs : List (String × String)) (k v : String) :
    List (String × String) :=
  (k, v) :: hs.filter (fun kv => kv.1 != k)

/-- The transport-level response writer. -/
structure httpResponse where
  headers : List (String × String)
  wroteHeader : Option Nat
  body : String
deriving DecidableEq

/-- Transport `WriteHeader`: only the first call takes effect. -/
def httpResponse.writeHeader (w : httpResponse) (code : Nat) :
    httpResponse :=
  { w with wroteHeader := some (w.wroteHeader.getD code) }

/-- Transport `Write`: append the bytes (an implicit status 200 if no
header was written yet) and report the byte count written. -/
def httpResponse.write (w : httpResponse) (b : String) :
    httpResponse × Nat :=
  ({ w with wroteHeader := some (w.wroteHeader.getD 200),
            body := w.body ++ b },
   b.length)

/-- Source `responseWriter`: wraps the transport writer and records the
status code and total size written through it. -/
structure responseWriter where
  ResponseWriter : httpResponse
  status : Nat
  size : Nat
deriving DecidableEq

/-- Source `newResponseWriter`: status starts at 200, size at 0. -/
def newResponseWriter (w : httpResponse) : responseWriter := ⟨w, 200, 0⟩

/-- Source `responseWriter.WriteHeader`: record the code, forward it. -/
def responseWriter.WriteHeader (rw : responseWriter) (code : Nat) :
    responseWriter :=
  { rw with status := code,
            ResponseWriter := rw.ResponseWriter.writeHeader code }

/-- Source `responseWriter.Write`: forward the bytes and add the count
reported by the transport to `size`. -/
def responseWriter.Write (rw : responseWriter) (b : String) :
    responseWriter × Nat :=
  ({ rw with ResponseWriter := (rw.ResponseWriter.write b).1,
             size := rw.size + (rw.ResponseWriter.write b).2 },
   (rw.ResponseWriter.write b).2)

/-- The request data the Context helpers read: headers, an optional body
(`none` models a nil `Request.Body`), and the parsed query parameters. -/
structure Request where
  headers : List (String × String)
  body : Option String
  query : List (String × String)
deriving DecidableEq

/-- Source `Context` (the engine back-reference, used only for the
validator and templates, is dropped). -/
structure Context where
  Writer : responseWriter
  Req : Request
  Params : List (String × String)
  Status : Nat
deriving DecidableEq

/-- Source `NewContext`: empty params, status 200. -/
def NewContext (w : responseWriter) (r : Request) : Context :=
  ⟨w, r, [], 200⟩

/-- Source `Context.JSON`.  Sets the content type, records the status
through the wrapper, then encodes directly to the *underlying* writer
(`json.NewEncoder(c.Writer.ResponseWriter).Encode(v)`), bypassing the
wrapper's `Write`.  The encoder's output bytes for `v` (JSON text plus a
trailing newline) are taken as the argument `encodedBody`; encoding the
values used by the framework never fails, so the returned error is
`none`. -/
def Context.JSON (c : Context) (code : Nat) (encodedBody : String) :
    Context × Option String :=
  let uw₁ : httpResponse :=
    { c.Writer.ResponseWriter with
      headers := headerSet c.Writer.ResponseWriter.headers
        "Content-Type" "application/json" }
  let rw₁ : responseWriter := { c.Writer with ResponseWriter := uw₁ }
  let rw₂ := rw₁.WriteHeader code
  let rw₃ : responseWriter :=
    { rw₂ with ResponseWriter := (rw₂.ResponseWriter.write encodedBody).1 }
  ({ c with Writer := rw₃ }, none)

/-- Source `Context.Text`: record the status, then write the body
through the wrapper (so the size is tracked). -/
def Context.Text (c : Context) (code : Nat) (s : String) :
    Context × Option String :=
  let rw := c.Writer.WriteHeader code
  ({ c with Writer := (rw.Write s).1 }, none)

/-! ## JSON encoding of the error body (model of encoding/json) -/

/-- Lower-case hexadecimal digit. -/
def hexDigitChar (n : Nat) : Char :=
  if n < 10 then Char.ofNat (48 + n) else Char.ofNat (87 + n)

/-- Escaping of one character inside a JSON string, following Go's
encoder (quote, backslash, control characters, and the HTML-escaped
angle brackets and ampersand). -/
def jsonEscapeChar (ch : Char) : String :=
  if ch = '"' then "\\\""
  else if ch = '\\' then "\\\\"
  else if ch = '\n' then "\\n"
  else if ch = '\r' then "\\r"
  else if ch = '\t' then "\\t"
  else if ch = '<' then "\\u003c"
  else if ch = '>' then "\\u003e"
  else if ch = '&' then "\\u0026"
  else if ch.toNat < 32 then
    String.mk ['\\', 'u', '0', '0',
      hexDigitChar (ch.toNat / 16), hexDigitChar (ch.toNat % 16)]
  else String.mk [ch]

/-- JSON encoding of a string value. -/
def jsonEncodeString (s : String) : String :=
  "\"" ++ String.join (s.toList.map jsonEscapeChar) ++ "\""

/-- Source `serverError`: the JSON error payload with tag `error`. -/
structure serverError where
  Error : String
deriving DecidableEq

/-- Output of `json.NewEncoder(w).Encode(serverError\x7bError: msg\x7d)`:
the object with the single `error` key, followed by the newline the
encoder appends. -/
def jsonEncodeServerError (msg : String) : String :=
  "\x7b\"error\":" ++ jsonEncodeString msg ++ "\x7d\n"

/-- Source `defaultErrorHandler`: respond with status 400 and the JSON
error body; the error returned by `c.JSON` is discarded. -/
def defaultErrorHandler (c : Context) (errMsg : String) : Context :=
  (c.JSON 400 (jsonEncodeServerError errMsg)).1

/-- The error branch at the end of `Engine.handle`: run the configured
error handler exactly when the assembled chain returned an error,
otherwise keep the state as the chain left it. -/
def handleError {σ ε : Type} (errorHandler : σ → ε → σ)
    (res : σ × Option ε) : σ :=
  match res with
  | (c, some e) => errorHandler c e
  | (c, none) => c

/-! ## Request binding and query helpers (source: context.go) -/

/-- Source `Context.BindJSON`, parameterized by the `encoding/json`
collaborator `unmarshal`: nil body, then content-type check, then
empty-body check, then decode. -/
def Context.BindJSON {α : Type} (c : Context)
    (unmarshal : String → Except String α) : Except String α :=
  match c.Req.body with
  | none => .error "request body is empty"
  | some body =>
    if goContains (lookupFirst c.Req.headers "Content-Type")
        "application/json" = false then
      .error "content-type must be application/json"
    else if body.length = 0 then
      .error "empty json body"
    else unmarshal body

/-- The example binding target: a struct with one string field tagged
`name`. -/
structure CreateUser where
  Name : String
deriving DecidableEq

/-- Model of `json.Unmarshal` restricted to the shape used by the
binding example: exactly one string field keyed `name` whose value
contains no escape sequences. -/
def unmarshalCreateUser (body : String) : Except String CreateUser :=
  let cs := body.toList
  let pre := "\x7b\"name\":\"".toList
  let suf := "\"\x7d".toList
  if pre.isPrefixOf cs then
    let rest := cs.drop pre.length
    if suf.isSuffixOf rest ∧ suf.length ≤ rest.length then
      let val := rest.take (rest.length - suf.length)
      if val.contains '"' ∨ val.contains '\\' then
        .error "invalid JSON"
      else .ok ⟨String.mk val⟩
    else .error "invalid JSON"
  else .error "invalid JSON"

/-- Source `Context.Query`: `c.Request.URL.Query().Get(key)` — first
value for the key, or the empty string. -/
def Context.Query (c : Context) (key : String) : String :=
  lookupFirst c.Req.query key

/-- Decimal digit value. -/
def digitVal (ch : Char) : Option Nat :=
  if '0' ≤ ch ∧ ch ≤ '9' then some (ch.toNat - 48) else none

/-- Parse a non-empty run of decimal digits. -/
def parseNatDigits (cs : List Char) : Option Nat :=
  if cs.isEmpty then none
  else cs.foldl (fun acc ch =>
    match acc, digitVal ch with
    | some n, some d => some (n * 10 + d)
    | _, _ => none) (some 0)

/-- Model of Go `strconv.Atoi` (64-bit int): optional sign, decimal
digits, out-of-range clamps to the bound and reports an error. -/
def goAtoi (s : String) : Int × Option String :=
  let cs := s.toList
  let sd : Bool × List Char :=
    match cs with
    | '-' :: rest => (true, rest)
    | '+' :: rest => (false, rest)
    | _ => (false, cs)
  match parseNatDigits sd.2 with
  | none => (0, some "invalid syntax")
  | some n =>
    let v : Int := if sd.1 then -(n : Int) else (n : Int)
    if v < -(2 ^ 63) then (-(2 ^ 63), some "value out of range")
    else if (2 ^ 63 - 1 : Int) < v then
      ((2 ^ 63 - 1 : Int), some "value out of range")
    else (v, none)

/-- Model of Go `strconv.ParseBool`: the twelve accepted spellings;
anything else is a syntax error reported alongside `false`. -/
def goParseBool (s : String) : Bool × Option String :=
  if s = "1" ∨ s = "t" ∨ s = "T" ∨ s = "TRUE" ∨ s = "true" ∨ s = "True" then
    (true, none)
  else if s = "0" ∨ s = "f" ∨ s = "F" ∨ s = "FALSE" ∨ s = "false" ∨
      s = "False" then
    (false, none)
  else (false, some "invalid syntax")

/-- Source `Context.QueryInt`: empty/missing value short-circuits to
`(0, nil)`; otherwise `strconv.Atoi`. -/
def Context.QueryInt (c : Context) (key : String) : Int × Option String :=
  let val := c.Query key
  if val = "" then (0, none) else goAtoi val

/-- Source `Context.QueryBool`: empty/missing value short-circuits to
`(false, nil)`; otherwise `strconv.ParseBool`. -/
def Context.QueryBool (c : Context) (key : String) :
    Bool × Option String :=
  let val := c.Query key
  if val = "" then (false, none) else goParseBool val

/-! ## Concrete request/response fixtures -/

/-- A transport writer with nothing written yet. -/
def emptyHttpResponse : httpResponse := ⟨[], none, ""⟩

/-- A request with no headers, nil body, no query. -/
def emptyRequest : Request := ⟨[], none, []⟩

/-- A fresh per-request context over an untouched writer. -/
def freshContext (r : Request) : Context :=
  NewContext (newResponseWriter emptyHttpResponse) r

/-- The binding example's request: JSON content type and the body from
the spec's example. -/
def jsonRequest : Request :=
  ⟨[("Content-Type", "application/json")],
   some "\x7b\"name\":\"mows\"\x7d", []⟩

/-- A request whose body is present but the content-type header is
missing. -/
def noCtRequest : Request := ⟨[], some "\x7b\x7d", []⟩

/-- A request with the JSON content type and a zero-byte body. -/
def emptyBodyRequest : Request :=
  ⟨[("Content-Type", "application/json")], some "", []⟩

end Mows

namespace Mows

/-! ## Lemmas about the router -/

/-- Static lookup hit: `find` returns the static route with no bindings. -/
theorem find_static {H M : Type} (r : Router H M) (method path : String)
    (rt : route H M) (h : r.staticRoutes method path = some rt) :
    r.find method path = some (rt, []) := by
  simp [Router.find, h]

/-- Effect of one registration on the static table. -/
theorem static_addWithMiddleware {H M : Type} (r : Router H M)
    (method path : String) (hd : H) (ms : List M) (m' p' : String) :
    (r.addWithMiddleware method path hd ms).staticRoutes m' p' =
      if hasParams path = false then
        (if m' = method ∧ p' = path then some ⟨hd, ms⟩
         else r.staticRoutes m' p')
      else r.staticRoutes m' p' := by
  by_cases h : hasParams path = false <;>
    simp [Router.addWithMiddleware, h]

/-- Effect of one registration on a method's parameterized-route list. -/
theorem param_addWithMiddleware {H M : Type} (r : Router H M)
    (method path : String) (hd : H) (ms : List M) (m' : String) :
    (r.addWithMiddleware method path hd ms).paramRoutes m' =
      if hasParams path = true then
        (if m' = method then
          r.paramRoutes m' ++ [⟨requestParts path, ⟨hd, ms⟩⟩]
         else r.paramRoutes m')
      else r.paramRoutes m' := by
  by_cases h : hasParams path = true
  · simp [Router.addWithMiddleware, h]
  · simp at h
    simp [Router.addWithMiddleware, h]

/-- Across a whole registration sequence, if the target static pair is
either still to come in the sequence or already present in the table, and
every registration of that exact (method, path) carries the same handler
and middlewares, the final static table maps the pair to that route. -/
theorem applyRegs_static {H M : Type} (regs : List (Registration H M)) :
    ∀ (r : Router H M) (method path : String) (h : H) (ms : List M),
    hasParams path = false →
    (∀ g ∈ regs, g.method = method → g.path = path →
      g.handler = h ∧ g.middlewares = ms) →
    ((Registration.mk method path h ms) ∈ regs ∨
      r.staticRoutes method path = some ⟨h, ms⟩) →
    (applyRegs regs r).staticRoutes method path = some ⟨h, ms⟩ := by
  induction regs with
  | nil =>
    intro r method path h ms _ _ hmem
    rcases hmem with hmem | hmem
    · exact absurd hmem (List.not_mem_nil _)
    · simpa [applyRegs] using hmem
  | cons g rest ih =>
    intro r method path h ms hstatic huniq hmem
    have hstep : applyRegs (g :: rest) r =
        applyRegs rest
          (r.addWithMiddleware g.method g.path g.handler g.middlewares) := by
      simp [applyRegs]
    rw [hstep]
    apply ih _ method path h ms hstatic
    · intro g' hg' hm hp
      exact huniq g' (List.mem_cons_of_mem _ hg') hm hp
    · rcases hmem with hmem | hstat
      · rcases List.mem_cons.mp hmem with heq | hrest
        · right
          have hg : g.method = method ∧ g.path = path ∧
              g.handler = h ∧ g.middlewares = ms := by
            rw [← heq]
            exact ⟨rfl, rfl, rfl, rfl⟩
          rw [static_addWithMiddleware]
          simp [hg.1, hg.2.1, hg.2.2.1, hg.2.2.2, hstatic]
        · exact Or.inl hrest
      · right
        rw [static_addWithMiddleware]
        by_cases hp : hasParams g.path = false
        · by_cases hmp : method = g.method ∧ path = g.path
          · have := huniq g (List.mem_cons_self _ _) hmp.1.symm hmp.2.symm
            simp [hp, hmp.1, hmp.2, this.1, this.2]
          · have : ¬ (method = g.method ∧ path = g.path) := hmp
            simp [hp, this, hstat]
        · simp [hp, hstat]

/-- Unfolding of the declarative match on a segment pair. -/
theorem candMatches_cons (p q : List Char) (ps qs : List (List Char)) :
    candMatches (p :: ps) (q :: qs) =
      ((decide (p.head? = some ':') || decide (p = q)) &&
        candMatches ps qs) := by
  by_cases h : ps.length = qs.length <;>
    simp [candMatches, h, Bool.and_comm, Bool.and_left_comm, Bool.and_assoc]

/-- Unfolding of the declarative bindings on a segment pair. -/
theorem bindParams_cons (p q : List Char) (ps qs : List (List Char)) :
    bindParams (p :: ps) (q :: qs) =
      if p.head? = some ':' then
        (String.mk p.tail, String.mk q) :: bindParams ps qs
      else bindParams ps qs := by
  by_cases hp : p.head? = some ':' <;> simp [bindParams, hp]

/-- The source's pairwise segment walk agrees with the declarative
characterization: it succeeds exactly when the candidate has the same
segment count and every literal segment is byte-wise equal, and then
returns precisely the in-order capture bindings. -/
theorem matchParts_eq (cand req : List (List Char)) :
    matchParts cand req =
      if candMatches cand req then some (bindParams cand req) else none := by
  induction cand generalizing req with
  | nil =>
    cases req with
    | nil => simp [matchParts, candMatches, bindParams]
    | cons q qs => simp [matchParts, candMatches]
  | cons p ps ih =>
    cases req with
    | nil => simp [matchParts, candMatches]
    | cons q qs =>
      rw [candMatches_cons, bindParams_cons]
      by_cases hp : p.head? = some ':'
      · by_cases hm : candMatches ps qs = true
        · simp [matchParts, hp, hm, ih qs]
        · have hm' : candMatches ps qs = false := by
            simpa using hm
          simp [matchParts, hp, hm', ih qs]
      · by_cases hq : p = q
        · have hq' : ¬ q.head? = some ':' := hq ▸ hp
          simp [matchParts, hp, hq, hq', ih qs]
        · simp [matchParts, hp, hq]

/-- The source's param-route scan returns the earliest candidate in list
order (registration order) that matches, with its declarative bindings. -/
theorem findParam_eq {H M : Type} (l : List (paramRoute H M))
    (req : List (List Char)) :
    findParam l req =
      (l.find? fun pr => candMatches pr.pathParts req).map
        (fun pr => (pr.rt, bindParams pr.pathParts req)) := by
  induction l with
  | nil => simp [findParam]
  | cons pr rest ih =>
    by_cases hlen : pr.pathParts.length = req.length
    · by_cases hm : candMatches pr.pathParts req = true
      · have hsome : matchParts pr.pathParts req =
            some (bindParams pr.pathParts req) := by
          rw [matchParts_eq, hm]; simp
        simp [findParam, hlen, hsome, hm]
      · have hm' : candMatches pr.pathParts req = false := by simpa using hm
        have hnone : matchParts pr.pathParts req = none := by
          rw [matchParts_eq, hm']; simp
        simp [findParam, hlen, hnone, hm', ih]
    · have hm' : candMatches pr.pathParts req = false := by
        simp [candMatches, hlen]
      simp [findParam, hlen, hm', ih]

/-! ## Claim theorems: routing -/

/-- C1: for every registered static route (method, path), `find` on that
exact method and path returns that route with no parameter bindings,
whatever parameterized routes are registered and in whatever order the
registrations were made. -/
theorem C1_static_route_precedence {H M : Type}
    (regs : List (Registration H M)) (method path : String)
    (h : H) (ms : List M)
    (hmem : Registration.mk method path h ms ∈ regs)
    (hstatic : hasParams path = false)
    (huniq : ∀ g ∈ regs, g.method = method → g.path = path →
      g.handler = h ∧ g.middlewares = ms) :
    (applyRegs regs (NewRouter H M)).find method path =
      some (⟨h, ms⟩, []) := by
  apply find_static
  exact applyRegs_static regs _ method path h ms hstatic huniq (Or.inl hmem)

/-- Witness for C1 at a concrete registration sequence: a static route
registered between two parameterized routes of the same shape is still
returned exactly, with no bindings. -/
theorem C1_static_route_precedence_witness :
    (Registration.mk "GET" "/users/me" 2 [20] ∈ regs0 ∧
      hasParams "/users/me" = false ∧
      (∀ g ∈ regs0, g.method = "GET" → g.path = "/users/me" →
        g.handler = 2 ∧ g.middlewares = [20])) ∧
    r0.find "GET" "/users/me" = some (⟨2, [20]⟩, []) :=
  ⟨⟨by decide, by decide, by decide⟩,
   C1_static_route_precedence regs0 "GET" "/users/me" 2 [20]
     (by decide) (by decide) (by decide)⟩

/-- C2: with no static match, `find` equals the first (earliest
registered) parameterized candidate, in list order, that matches the
request segments — same segment count, literal segments byte-wise equal —
returning its route and the in-order capture bindings; and registering a
parameterized route appends it to the method's list, so list order is
registration order. -/
theorem C2_param_route_matching {H M : Type} (r : Router H M)
    (method path p' : String) (hd : H) (ms : List M)
    (hstatic : r.staticRoutes method path = none)
    (hp' : hasParams p' = true) :
    (r.find method path =
      ((r.paramRoutes method).find? fun pr =>
          candMatches pr.pathParts (requestParts path)).map
        (fun pr => (pr.rt, bindParams pr.pathParts (requestParts path)))) ∧
    (r.addWithMiddleware method p' hd ms).paramRoutes method =
      r.paramRoutes method ++ [⟨requestParts p', ⟨hd, ms⟩⟩] := by
  constructor
  · simp [Router.find, hstatic, findParam_eq]
  · rw [param_addWithMiddleware]; simp [hp']

/-- Witness for C2 at a concrete router: a request path with no static
match resolves through the parameterized scan, and a fresh parameterized
registration is appended at the end of the method's list. -/
theorem C2_param_route_matching_witness :
    (r0.staticRoutes "GET" "/users/42" = none ∧
      hasParams "/x/:y" = true) ∧
    ((r0.find "GET" "/users/42" =
      ((r0.paramRoutes "GET").find? fun pr =>
          candMatches pr.pathParts (requestParts "/users/42")).map
        (fun pr => (pr.rt, bindParams pr.pathParts (requestParts "/users/42")))) ∧
    (r0.addWithMiddleware "GET" "/x/:y" 9 [90]).paramRoutes "GET" =
      r0.paramRoutes "GET" ++ [⟨requestParts "/x/:y", ⟨9, [90]⟩⟩]) :=
  ⟨⟨by decide, by decide⟩,
   C2_param_route_matching r0 "GET" "/users/42" "/x/:y" 9 [90]
     (by decide) (by decide)⟩

/-! ## Lemmas about middleware chains -/

/-- A chain of adapted handlers around a final handler is sequential
execution of the handlers followed by the final handler, stopping at the
first error. -/
theorem buildChain_map_wrap {σ ε : Type} (hs : List (HandlerFunc σ ε))
    (f : HandlerFunc σ ε) :
    buildChain (hs.map wrapHandlerAsMiddleware) f = dSeq hs f := by
  induction hs with
  | nil =>
    funext s
    simp [buildChain, dSeq, runAll]
  | cons h t ih =>
    have hstep : buildChain ((h :: t).map wrapHandlerAsMiddleware) f =
        wrapHandlerAsMiddleware h (buildChain (t.map wrapHandlerAsMiddleware) f) := by
      simp [buildChain]
    rw [hstep, ih]
    funext s
    rcases hhs : h s with ⟨s₁, oe⟩
    cases oe with
    | some e => simp [wrapHandlerAsMiddleware, dSeq, runAll, hhs]
    | none =>
      simp only [wrapHandlerAsMiddleware, dSeq, runAll, hhs]
      rcases hr : runAll t s₁ with ⟨s₂, oe₂⟩
      cases oe₂ with
      | some e₂ => simp [hr]
      | none =>
        simp [hr]
        rcases hf : f s₂ with ⟨s₃, oe₃⟩
        cases oe₃ <;> simp [hf]

/-- Sequential execution over an appended list runs the first part and,
if no error occurred, continues with the second. -/
theorem runAll_append {σ ε : Type} (as bs : List (HandlerFunc σ ε)) (s : σ) :
    runAll (as ++ bs) s =
      match runAll as s with
      | (s', some e) => (s', some e)
      | (s', none) => runAll bs s' := by
  induction as generalizing s with
  | nil => simp [runAll]
  | cons a t ih =>
    rcases ha : a s with ⟨s₁, oe⟩
    cases oe with
    | some e => simp [runAll, ha]
    | none => simp [runAll, ha, ih]

/-- Continuation form of `runAll_append`. -/
theorem dSeq_append {σ ε : Type} (as bs : List (HandlerFunc σ ε))
    (f : HandlerFunc σ ε) :
    dSeq (as ++ bs) f = dSeq as (dSeq bs f) := by
  funext s
  simp only [dSeq, runAll_append]
  rcases hr : runAll as s with ⟨s₁, oe⟩
  cases oe with
  | some e => rfl
  | none => rfl

/-- Appending the terminal handler at the end of a sequential run. -/
theorem runAll_concat {σ ε : Type} (hs : List (HandlerFunc σ ε))
    (h : HandlerFunc σ ε) :
    runAll (hs ++ [h]) = dSeq hs h := by
  funext s
  rw [runAll_append]
  simp only [dSeq]
  rcases hr : runAll hs s with ⟨s₁, oe⟩
  cases oe with
  | some e => rfl
  | none =>
    show runAll [h] s₁ = h s₁
    rcases hh : h s₁ with ⟨s₂, oe₂⟩
    cases oe₂ <;> simp [runAll, hh]

/-! ## Claim theorems: middleware composition and registration -/

/-- C3: `buildChain` makes `middlewares[0]` the outermost wrapper (head
of the list is applied last, hence outermost); the full per-request
assembly — global middlewares around group middlewares around
route-specific adapted handlers around the terminal handler — executes
them in exactly that order, stopping at the first error; and a stage
that errors prevents every inner stage from running while the already
computed state is still returned outward. -/
theorem C3_middleware_composition {σ ε : Type}
    (m : Middleware σ ε) (ms : List (Middleware σ ε)) (f : HandlerFunc σ ε)
    (gs grs rrs : List (HandlerFunc σ ε)) (hterm : HandlerFunc σ ε)
    (e : ε) (tl : List (HandlerFunc σ ε)) (s : σ) :
    buildChain (m :: ms) f = m (buildChain ms f) ∧
    assembledChain (gs.map wrapHandlerAsMiddleware)
      ⟨hterm, (grs ++ rrs).map wrapHandlerAsMiddleware⟩ =
      runAll (gs ++ grs ++ rrs ++ [hterm]) ∧
    runAll ((fun s0 => (s0, some e)) :: tl) s = (s, some e) := by
  refine ⟨rfl, ?_, rfl⟩
  have h1 : routeChain (σ := σ) (ε := ε)
      ⟨hterm, (grs ++ rrs).map wrapHandlerAsMiddleware⟩ =
      dSeq (grs ++ rrs) hterm := by
    have : routeChain (σ := σ) (ε := ε)
        ⟨hterm, (grs ++ rrs).map wrapHandlerAsMiddleware⟩ =
        buildChain ((grs ++ rrs).map wrapHandlerAsMiddleware) hterm := rfl
    rw [this, buildChain_map_wrap]
  show buildChain (gs.map wrapHandlerAsMiddleware)
      (routeChain ⟨hterm, (grs ++ rrs).map wrapHandlerAsMiddleware⟩) = _
  rw [h1, buildChain_map_wrap, ← dSeq_append, ← runAll_concat]
  simp [List.append_assoc]

/-- C5: the adapter runs the wrapped handler and, exactly when it
returned no error, unconditionally calls `next`, propagating either
error; and `addRoute` with a variadic handler list registers the last
handler as the terminal handler with every earlier handler adapted into
a route middleware appended after the group middlewares. -/
theorem C5_variadic_handlers {σ ε : Type} (h next : HandlerFunc σ ε)
    (c : σ) (r : Router (HandlerFunc σ ε) (Middleware σ ε))
    (method path : String) (mws : List (Middleware σ ε))
    (hs : List (HandlerFunc σ ε)) (hlast : HandlerFunc σ ε) :
    wrapHandlerAsMiddleware h next c =
      (match h c with
       | (c', some e) => (c', some e)
       | (c', none) => next c') ∧
    addRoute r method path mws (hs ++ [hlast]) =
      .ok (r.addWithMiddleware method path hlast
        (mws ++ hs.map wrapHandlerAsMiddleware)) := by
  constructor
  · rcases hc : h c with ⟨c', oe⟩
    cases oe with
    | some e => simp [wrapHandlerAsMiddleware, hc]
    | none =>
      simp only [wrapHandlerAsMiddleware, hc]
      rcases hn : next c' with ⟨c'', oe₂⟩
      cases oe₂ <;> simp [hn]
  · simp [addRoute, List.getLast?_concat, List.dropLast_concat]

/-- C4: nesting groups concatenates prefixes raw (no slash
normalization) and appends middleware lists; in particular "/api" then
"/admin" yields "/api/admin", and a duplicate slash is kept as-is. -/
theorem C4_group_nesting {σ ε : Type} (pp q : String)
    (pm ms : List (Middleware σ ε)) :
    (RouterGroup.mk pp pm).Group q ms = RouterGroup.mk (pp ++ q) (pm ++ ms) ∧
    ((RouterGroup.mk "/api" ([] : List (Middleware Unit Unit))).Group
      "/admin" []).prefixStr = "/api/admin" ∧
    ((RouterGroup.mk "/api/" ([] : List (Middleware Unit Unit))).Group
      "/admin" []).prefixStr = "/api//admin" := by
  refine ⟨rfl, by decide, by decide⟩

/-- C10: registering a route with an empty handler list panics with
exactly the message "route must have at least one handler" (modelled as
`Except.error`, so no router is produced and the route table is left
unchanged), both through `addRoute` and through a group registrar; with
at least one handler, registration always succeeds. -/
theorem C10_empty_handler_registration {σ ε : Type}
    (r : Router (HandlerFunc σ ε) (Middleware σ ε)) (method path : String)
    (mws : List (Middleware σ ε)) (rg : RouterGroup σ ε) (p : String)
    (h : HandlerFunc σ ε) (hs : List (HandlerFunc σ ε)) :
    addRoute r method path mws [] =
      .error "route must have at least one handler" ∧
    rg.GET r p [] = .error "route must have at least one handler" ∧
    exceptIsOk (addRoute r method path mws (h :: hs)) = true ∧
    exceptIsOk (rg.GET r p (h :: hs)) = true := by
  have hlast : ∃ f, (h :: hs).getLast? = some f := by
    cases hl : (h :: hs).getLast? with
    | none =>
      exact absurd (List.getLast?_eq_none_iff.mp hl) (by simp)
    | some f => exact ⟨f, rfl⟩
  rcases hlast with ⟨f, hf⟩
  refine ⟨rfl, rfl, ?_, ?_⟩
  · simp [addRoute, hf, exceptIsOk]
  · simp [RouterGroup.GET, addRoute, hf, exceptIsOk]

/-! ## Claim theorems: error handling, context helpers, writer -/

/-- C6: the dispatcher applies the configured error handler exactly when
the assembled chain returned an error — one application, with the chain's
final state and error — and never otherwise; the default error handler
writes status 400 with the JSON error object (the encoder appends a
trailing newline), as in the "user not found" example. -/
theorem C6_error_delivery {σ ε : Type} (eh : σ → ε → σ) (c : σ) (e : ε)
    (msg : String) :
    handleError eh (c, some e) = eh c e ∧
    handleError eh (c, none) = c ∧
    ((defaultErrorHandler (freshContext emptyRequest) msg).Writer.status = 400 ∧
     (defaultErrorHandler (freshContext emptyRequest)
        msg).Writer.ResponseWriter.wroteHeader = some 400 ∧
     (defaultErrorHandler (freshContext emptyRequest)
        msg).Writer.ResponseWriter.body = jsonEncodeServerError msg ∧
     lookupFirst (defaultErrorHandler (freshContext emptyRequest)
        msg).Writer.ResponseWriter.headers "Content-Type" =
       "application/json") ∧
    jsonEncodeServerError "user not found" =
      "\x7b\"error\":\"user not found\"\x7d\n" := by
  refine ⟨rfl, rfl, ⟨rfl, rfl, ?_, rfl⟩, by decide⟩
  show ("" : String) ++ jsonEncodeServerError msg = jsonEncodeServerError msg
  simp

/-- C7: with a present body, `BindJSON` rejects a content type that does
not contain "application/json" with the content-type error; with the
right content type and a present zero-byte body it returns the
empty-body error; and the spec's example body decodes into
`Name = "mows"`. -/
theorem C7_bind_json {α : Type} (unm : String → Except String α)
    (c c₂ : Context) (bs : String)
    (hbody : c.Req.body = some bs)
    (hct : goContains (lookupFirst c.Req.headers "Content-Type")
      "application/json" = false)
    (hbody₂ : c₂.Req.body = some "")
    (hct₂ : goContains (lookupFirst c₂.Req.headers "Content-Type")
      "application/json" = true) :
    c.BindJSON unm = .error "content-type must be application/json" ∧
    c₂.BindJSON unm = .error "empty json body" ∧
    (freshContext jsonRequest).BindJSON unmarshalCreateUser =
      .ok ⟨"mows"⟩ := by
  refine ⟨?_, ?_, by rfl⟩
  · simp [Context.BindJSON, hbody, hct]
  · simp [Context.BindJSON, hbody₂, hct₂]

/-- Witness for C7: a request with a body but no Content-Type header
fails with the content-type error; one with the JSON content type and a
zero-byte body fails with the empty-body error. -/
theorem C7_bind_json_witness :
    ((freshContext noCtRequest).Req.body = some "\x7b\x7d" ∧
     goContains (lookupFirst (freshContext noCtRequest).Req.headers
       "Content-Type") "application/json" = false ∧
     (freshContext emptyBodyRequest).Req.body = some "" ∧
     goContains (lookupFirst (freshContext emptyBodyRequest).Req.headers
       "Content-Type") "application/json" = true) ∧
    ((freshContext noCtRequest).BindJSON unmarshalCreateUser =
      .error "content-type must be application/json" ∧
     (freshContext emptyBodyRequest).BindJSON unmarshalCreateUser =
      .error "empty json body" ∧
     (freshContext jsonRequest).BindJSON unmarshalCreateUser =
      .ok ⟨"mows"⟩) :=
  ⟨⟨by decide, by decide, by decide, by decide⟩,
   C7_bind_json unmarshalCreateUser (freshContext noCtRequest)
     (freshContext emptyBodyRequest) "\x7b\x7d"
     (by decide) (by decide) (by decide) (by decide)⟩

/-- C8 counterexample: on a fresh context, the JSON helper writes 3 body
bytes but the wrapper's recorded size stays 0, so the recorded byte
count does not equal the bytes written through the helper. -/
theorem C8_writer_size_counterexample :
    ((freshContext emptyRequest).JSON 200 "abc").1.Writer.ResponseWriter.body.length = 3 ∧
    ¬ (((freshContext emptyRequest).JSON 200 "abc").1.Writer.size =
        ((freshContext emptyRequest).JSON 200
          "abc").1.Writer.ResponseWriter.body.length) := by
  exact ⟨by decide, by decide⟩

/-- C8 (amended): after either response helper the wrapper records the
status code passed to it; the byte count grows by the bytes written
through `Text` (which goes through the wrapper), but `JSON` encodes
directly to the underlying writer, so its bytes reach the body without
being counted in `size`. -/
theorem C8_writer_observation (c : Context) (code : Nat) (s enc : String) :
    ((c.Text code s).1.Writer.status = code ∧
     (c.Text code s).1.Writer.size = c.Writer.size + s.length ∧
     (c.Text code s).1.Writer.ResponseWriter.body =
       c.Writer.ResponseWriter.body ++ s) ∧
    ((c.JSON code enc).1.Writer.status = code ∧
     (c.JSON code enc).1.Writer.size = c.Writer.size ∧
     (c.JSON code enc).1.Writer.ResponseWriter.body =
       c.Writer.ResponseWriter.body ++ enc) := by
  refine ⟨⟨rfl, rfl, rfl⟩, ⟨rfl, rfl, rfl⟩⟩

/-- C9: a key absent from the query yields `(0, nil)` from `QueryInt`
and `(false, nil)` from `QueryBool` — indistinguishable from explicit
"0" and "false" values — and a parse error is only ever produced when
the key is present with a non-empty unparsable value. -/
theorem C9_missing_query_key (c : Context) (key : String)
    (habs : c.Req.query.find? (fun kv => kv.1 == key) = none) :
    (c.QueryInt key = (0, none) ∧ c.QueryBool key = (false, none)) ∧
    (∀ c' : Context, c'.Query key = "0" → c'.QueryInt key = (0, none)) ∧
    (∀ c' : Context, c'.Query key = "false" →
      c'.QueryBool key = (false, none)) ∧
    (∀ (c' : Context) (e : String), (c'.QueryInt key).2 = some e →
      c'.Query key ≠ "" ∧ (goAtoi (c'.Query key)).2 = some e) ∧
    (∀ (c' : Context) (e : String), (c'.QueryBool key).2 = some e →
      c'.Query key ≠ "" ∧ (goParseBool (c'.Query key)).2 = some e) := by
  refine ⟨?_, ?_, ?_, ?_, ?_⟩
  · constructor <;>
      simp [Context.QueryInt, Context.QueryBool, Context.Query,
        lookupFirst, habs]
  · intro c' h
    rw [Context.QueryInt, h]
    decide
  · intro c' h
    rw [Context.QueryBool, h]
    decide
  · intro c' e h
    by_cases hv : c'.Query key = ""
    · rw [Context.QueryInt, hv] at h
      simp at h
    · rw [Context.QueryInt] at h
      simp only [hv, if_false] at h
      exact ⟨hv, h⟩
  · intro c' e h
    by_cases hv : c'.Query key = ""
    · rw [Context.QueryBool, hv] at h
      simp at h
    · rw [Context.QueryBool] at h
      simp only [hv, if_false] at h
      exact ⟨hv, h⟩

/-- Witness for C9 on a request with no query parameters. -/
theorem C9_missing_query_key_witness :
    (freshContext emptyRequest).Req.query.find?
      (fun kv => kv.1 == "page") = none ∧
    (((freshContext emptyRequest).QueryInt "page" = (0, none) ∧
      (freshContext emptyRequest).QueryBool "page" = (false, none)) ∧
     (∀ c' : Context, c'.Query "page" = "0" →
        c'.QueryInt "page" = (0, none)) ∧
     (∀ c' : Context, c'.Query "page" = "false" →
        c'.QueryBool "page" = (false, none)) ∧
     (∀ (c' : Context) (e : String), (c'.QueryInt "page").2 = some e →
        c'.Query "page" ≠ "" ∧ (goAtoi (c'.Query "page")).2 = some e) ∧
     (∀ (c' : Context) (e : String), (c'.QueryBool "page").2 = some e →
        c'.Query "page" ≠ "" ∧
          (goParseBool (c'.Query "page")).2 = some e)) :=
  ⟨by decide,
   C9_missing_query_key (freshContext emptyRequest) "page" (by decide)⟩

end Mows
